import Mathlib

/-!
# Planning-Manager: room reservations

A shallow embedding of `Planning-Manager-main/main.go`.

* The MySQL database behind the global handle `db` is the record `DB`: the table
  `rooms`, the table `reservations`, the next auto-increment id, and the log of the
  statements issued so far.  Every statement is answered (no connection failure), so
  the `log.Fatal` and `StorageError` branches that follow a failed statement are not
  part of the model.
* A `DATE` value is a `Date`; a `TIME` value is a number of seconds since midnight.
  Formatting a `time.Time` with `15:04:05` or `2006-01-02` and having MySQL read the
  string back is the identity on these values.
* `time.Parse` is embedded for the two layouts the program uses, following the steps
  of the Go standard library (`getnum`, `skip`, `atoi`, `daysIn`).
* Values typed on the console (`fmt.Scanln`) are extra arguments.
-/

namespace PlanningManager

/-! ## Go `time.Parse` for the layouts `2006-01-02` and `15:04` -/

/-- Calendar date: the value of a `DATE` column and of a parsed `2006-01-02` string. -/
structure Date where
  year : Nat
  month : Nat
  day : Nat
deriving DecidableEq, Repr

/-- Value of a decimal digit character (`c - '0'` in Go). -/
def digitVal (c : Char) : Nat := c.toNat - 48

/-- Go `getnum(s, fixed)`: reads one or two leading digits (`fixed` forces two) and
returns the number with the rest of the input. -/
def getnum : List Char → Bool → Option (Nat × List Char)
  | [], _ => none
  | [c], isFixed =>
      if c.isDigit then (if isFixed then none else some (digitVal c, [])) else none
  | c :: d :: rest, isFixed =>
      if c.isDigit then
        if d.isDigit then some (digitVal c * 10 + digitVal d, rest)
        else if isFixed then none else some (digitVal c, d :: rest)
      else none

/-- Go `skip(value, prefix)` for a one-character literal of the layout that is not a
space: the next input character has to be that literal. -/
def skip : List Char → Char → Option (List Char)
  | [], _ => none
  | c :: rest, lit => if c = lit then some rest else none

/-- Go `atoi` on the four characters cut off for `stdLongYear`; the first one is known
to be a digit, so the result exists exactly when all four are digits. -/
def atoi4 (a b c d : Char) : Option Nat :=
  if a.isDigit && b.isDigit && c.isDigit && d.isDigit then
    some (digitVal a * 1000 + digitVal b * 100 + digitVal c * 10 + digitVal d)
  else none

/-- Go `isLeap`. -/
def isLeap (year : Nat) : Bool :=
  year % 4 == 0 && (year % 100 != 0 || year % 400 == 0)

/-- Go `daysIn(month, year)` for a month in 1..12. -/
def daysIn (month year : Nat) : Nat :=
  if month == 2 then (if isLeap year then 29 else 28)
  else if month == 4 || month == 6 || month == 9 || month == 11 then 30
  else 31

/-- Go `time.Parse("2006-01-02", value)`: four-digit year, `-`, two-digit month in
1..12, `-`, two-digit day, nothing after it, and the day within the month. -/
def timeParseDate (value : String) : Option Date :=
  match value.data with
  | a :: b :: c :: d :: v1 =>
    match atoi4 a b c d with
    | none => none
    | some year =>
      match skip v1 '-' with
      | none => none
      | some v2 =>
        match getnum v2 true with
        | none => none
        | some (month, v3) =>
          if month = 0 ∨ 12 < month then none
          else
            match skip v3 '-' with
            | none => none
            | some v4 =>
              match getnum v4 true with
              | none => none
              | some (day, v5) =>
                if v5 ≠ [] then none
                else if day < 1 ∨ day > daysIn month year then none
                else some { year := year, month := month, day := day }
  | _ => none

/-- Go `time.Parse("15:04", value)` as seconds since midnight: a one- or two-digit hour
below 24, `:`, a two-digit minute below 60, nothing after it. -/
def timeParseClock (value : String) : Option Nat :=
  match getnum value.data false with
  | none => none
  | some (hour, v1) =>
    if 24 ≤ hour then none
    else
      match skip v1 ':' with
      | none => none
      | some v2 =>
        match getnum v2 true with
        | none => none
        | some (min, v3) =>
          if 60 ≤ min then none
          else if v3 ≠ [] then none
          else some (hour * 3600 + min * 60)

/-- The program's `parseDate`: `time.Parse` followed by the year range check. -/
def parseDate (inputDate : String) : Option Date :=
  match timeParseDate inputDate with
  | none => none
  | some date => if date.year < 1 ∨ date.year > 9999 then none else some date

/-! ## The database -/

/-- Row of the table `rooms`. -/
structure Room where
  ID : Int
  Name : String
  Capacity : Int
deriving DecidableEq, Repr

/-- Row of the table `reservations`; the times are seconds since midnight. -/
structure ReservationRow where
  id : Int
  room_id : Int
  date : Date
  start_time : Nat
  end_time : Nat
deriving DecidableEq, Repr

/-- Statements the program sends to the database. -/
inductive Stmt where
  | selectRooms
  | selectRoomIdByName
  | countConflicts
  | insertReservation
  | existsReservation
  | deleteReservation
  | selectReservations
deriving DecidableEq, Repr

/-- State of the database together with the log of statements issued on it. -/
structure DB where
  rooms : List Room
  reservations : List ReservationRow
  nextId : Int
  log : List Stmt
deriving DecidableEq, Repr

/-- Record that a statement was issued. -/
def DB.issue (db : DB) (q : Stmt) : DB := { db with log := db.log ++ [q] }

/-- The `WHERE` clause shared by `isRoomAvailable` and `isRoomAvailableList`, after
`room_id = ? AND date = ?`:
`(start_time <= ? AND end_time > ?) OR (start_time < ? AND end_time >= ?)` with the
arguments `startTime, startTime, endTime, endTime`. -/
def conflictClause (startTime endTime : Nat) (r : ReservationRow) : Bool :=
  (decide (r.start_time ≤ startTime) && decide (r.end_time > startTime)) ||
  (decide (r.start_time < endTime) && decide (r.end_time ≥ endTime))

/-- The `SELECT COUNT(*) FROM reservations WHERE room_id = ? AND date = ? AND (...)`
query. -/
def countConflicts (db : DB) (roomID : Int) (date : Date) (startTime endTime : Nat) : Nat :=
  (db.reservations.filter (fun r =>
    decide (r.room_id = roomID) && decide (r.date = date) &&
      conflictClause startTime endTime r)).length

/-- The program's `isRoomAvailable`: `true` when the count query returns zero. -/
def isRoomAvailable (db : DB) (roomID : Int) (date : Date) (startTime endTime : Nat) :
    Bool × DB :=
  (countConflicts db roomID date startTime endTime == 0, db.issue .countConflicts)

/-- The window `isRoomAvailableList` computes: it starts at the requested time and
ends at the clock reading one hour later (`timeSlot.Add(time.Hour)` formatted with
`15:04:05`, which keeps the time of day only). -/
def listWindow (timeSlot : Nat) : Nat × Nat :=
  (timeSlot, (timeSlot + 3600) % 86400)

/-- The program's `isRoomAvailableList`. -/
def isRoomAvailableList (db : DB) (roomID : Int) (date : Date) (timeSlot : Nat) :
    Bool × DB :=
  let startTime := (listWindow timeSlot).1
  let endTime := (listWindow timeSlot).2
  (countConflicts db roomID date startTime endTime == 0, db.issue .countConflicts)

/-- The program's `getRoomIDByName`: the id of the first room with that name, or an
error when there is none. -/
def getRoomIDByName (db : DB) (name : String) : Option Int × DB :=
  ((db.rooms.find? (fun ro => decide (ro.Name = name))).map (fun ro => ro.ID),
    db.issue .selectRoomIdByName)

/-- Errors `createReservation` returns. -/
inductive CreateError where
  | dateParse
  | startTimeFormat
  | endTimeFormat
  | roomLookup
  | notAvailable
deriving DecidableEq, Repr

/-- The errors that come from validating the three input strings. -/
def CreateError.isValidation : CreateError → Bool
  | .dateParse => true
  | .startTimeFormat => true
  | .endTimeFormat => true
  | _ => false

/-- The `INSERT INTO reservations (room_id, date, start_time, end_time)` statement; the
id is assigned by the database. -/
def insertReservation (db : DB) (roomID : Int) (date : Date) (startTime endTime : Nat) : DB :=
  { rooms := db.rooms
    reservations := db.reservations ++
      [{ id := db.nextId, room_id := roomID, date := date,
         start_time := startTime, end_time := endTime }]
    nextId := db.nextId + 1
    log := db.log ++ [Stmt.insertReservation] }

/-- Message `createReservation` returns on success. -/
def successMessage : String := "Réservation créée avec succès !"

/-- The program's `createReservation`. -/
def createReservation (db : DB) (roomName date startTime endTime : String) :
    Except CreateError String × DB :=
  match parseDate date with
  | none => (.error .dateParse, db)
  | some parsedDate =>
    match timeParseClock startTime with
    | none => (.error .startTimeFormat, db)
    | some parsedStartTime =>
      match timeParseClock endTime with
      | none => (.error .endTimeFormat, db)
      | some parsedEndTime =>
        match getRoomIDByName db roomName with
        | (none, db1) => (.error .roomLookup, db1)
        | (some roomID, db1) =>
          match isRoomAvailable db1 roomID parsedDate parsedStartTime parsedEndTime with
          | (false, db2) => (.error .notAvailable, db2)
          | (true, db2) =>
            (.ok successMessage,
              insertReservation db2 roomID parsedDate parsedStartTime parsedEndTime)

/-- What `CancelReservation` prints. -/
inductive CancelOutcome where
  | notFound
  | cancelled
deriving DecidableEq, Repr

/-- The program's `CancelReservation`; `reservationID` is the number read from the
console. -/
def CancelReservation (db : DB) (reservationID : Int) : CancelOutcome × DB :=
  let db1 := db.issue .existsReservation
  if db.reservations.any (fun r => decide (r.id = reservationID)) then
    (.cancelled,
      { db1 with
        reservations := db1.reservations.filter (fun r => !decide (r.id = reservationID))
        log := db1.log ++ [Stmt.deleteReservation] })
  else (.notFound, db1)

/-! ## Listing the available rooms -/

/-- Errors `listAvailableRooms` returns. -/
inductive ListError where
  | dateFormat
  | timeFormat
deriving DecidableEq, Repr

/-- One turn of the `for rows.Next()` loop of `listAvailableRooms`: the room is appended
when `isRoomAvailableList` says it is free. -/
def listStep (date : Date) (timeSlot : Nat) (acc : List Room × DB) (room : Room) :
    List Room × DB :=
  match isRoomAvailableList acc.2 room.ID date timeSlot with
  | (true, db1) => (acc.1 ++ [room], db1)
  | (false, db1) => (acc.1, db1)

/-- The program's `listAvailableRooms`; `scannedDate` and `scannedTime` are what the
console would supply when the corresponding argument is empty. -/
def listAvailableRooms (db : DB) (scannedDate scannedTime inputDate inputTime : String) :
    Except ListError (List Room) × DB :=
  let inputDate := if inputDate = "" then scannedDate else inputDate
  let inputTime := if inputTime = "" then scannedTime else inputTime
  match timeParseDate inputDate with
  | none => (.error .dateFormat, db)
  | some date =>
    match timeParseClock inputTime with
    | none => (.error .timeFormat, db)
    | some timeSlot =>
      let db1 := db.issue .selectRooms
      let res := db1.rooms.foldl (listStep date timeSlot) ([], db1)
      (.ok res.1, res.2)

/-! ## Listing the reservations -/

/-- Element of the list `ListReservations` returns (Go `Reservation`); `ID` is never
filled in by the query, and the date and times are kept as values instead of the
strings `DATE_FORMAT` and `TIME_FORMAT` render. -/
structure Reservation where
  ID : Int
  RoomName : String
  Date : Date
  StartTime : Nat
  EndTime : Nat
deriving DecidableEq, Repr

/-- The `reservations r INNER JOIN rooms ro ON r.room_id = ro.id` part of the queries,
with the selected columns. -/
def joinRooms (db : DB) : List Reservation :=
  db.reservations.flatMap (fun r =>
    (db.rooms.filter (fun ro => decide (r.room_id = ro.ID))).map (fun ro =>
      { ID := 0, RoomName := ro.Name, Date := r.date,
        StartTime := r.start_time, EndTime := r.end_time }))

/-- Order of `DATE` values. -/
def dateLe (a b : Date) : Bool :=
  decide (a.year < b.year) ||
  (decide (a.year = b.year) &&
    (decide (a.month < b.month) || (decide (a.month = b.month) && decide (a.day ≤ b.day))))

/-- Strict order of room names, character by character. -/
def nameLt : List Char → List Char → Bool
  | _, [] => false
  | [], _ :: _ => true
  | a :: as, b :: bs => decide (a.toNat < b.toNat) || (decide (a = b) && nameLt as bs)

/-- The key order of `ORDER BY r.date, r.start_time`. -/
def byDateStart (a b : Reservation) : Prop :=
  (dateLe a.Date b.Date && (!dateLe b.Date a.Date || decide (a.StartTime ≤ b.StartTime))) = true

/-- The key order of `ORDER BY ro.name, r.date, r.start_time`. -/
def byNameDateStart (a b : Reservation) : Prop :=
  (nameLt a.RoomName.data b.RoomName.data ||
    (decide (a.RoomName = b.RoomName) &&
      (dateLe a.Date b.Date &&
        (!dateLe b.Date a.Date || decide (a.StartTime ≤ b.StartTime))))) = true

instance : DecidableRel byDateStart := fun a b => by unfold byDateStart; infer_instance

instance : DecidableRel byNameDateStart := fun a b => by unfold byNameDateStart; infer_instance

/-- The program's `ListReservations`.  `dateMatches` is how MySQL compares the `DATE`
column with the raw filter string (`r.date = ?`); rows that tie on the sort keys are
left in the order of the join. -/
def ListReservations (dateMatches : String → Date → Bool) (db : DB) (roomName date : String) :
    List Reservation × DB :=
  let db1 := db.issue .selectReservations
  if roomName ≠ "" ∧ date ≠ "" then
    (((joinRooms db).filter (fun x =>
        decide (x.RoomName = roomName) && dateMatches date x.Date)).insertionSort byDateStart, db1)
  else if roomName ≠ "" then
    (((joinRooms db).filter (fun x => decide (x.RoomName = roomName))).insertionSort byDateStart,
      db1)
  else if date ≠ "" then
    (((joinRooms db).filter (fun x => dateMatches date x.Date)).insertionSort byDateStart, db1)
  else
    ((joinRooms db).insertionSort byNameDateStart, db1)

/-! ## Sequences of calls and the properties of the specification -/

/-- One call of the reservation lifecycle. -/
inductive Op where
  | create (roomName date startTime endTime : String)
  | cancel (reservationID : Int)
deriving DecidableEq, Repr

/-- Run one call on the database. -/
def step (db : DB) : Op → DB
  | .create roomName date startTime endTime =>
      (createReservation db roomName date startTime endTime).2
  | .cancel reservationID => (CancelReservation db reservationID).2

/-- Run a finite sequence of calls, one after the other. -/
def run (db : DB) (ops : List Op) : DB := ops.foldl step db

/-- Half-open overlap of the specification: `[s1,e1)` and `[s2,e2)` overlap iff
`s1 < e2` and `s2 < e1`. -/
def intervalsOverlap (s1 e1 s2 e2 : Nat) : Bool := decide (s1 < e2) && decide (s2 < e1)

/-- Two stored reservations of the same room and date whose intervals overlap. -/
def rowsOverlap (a b : ReservationRow) : Bool :=
  decide (a.room_id = b.room_id) && decide (a.date = b.date) &&
    intervalsOverlap a.start_time a.end_time b.start_time b.end_time

/-- The central invariant of the specification: no two stored reservations of the same
room and date overlap. -/
def NoOverlap (db : DB) : Prop :=
  db.reservations.Pairwise (fun a b => rowsOverlap a b = false)

instance (db : DB) : Decidable (NoOverlap db) := by unfold NoOverlap; infer_instance

/-- Days of a month of the Gregorian calendar, as the specification's "well-formed
calendar date" needs them. -/
def calendarDays (year month : Nat) : Nat :=
  let leap := (year % 4 = 0 ∧ year % 100 ≠ 0) ∨ year % 400 = 0
  ([31, if leap then 29 else 28, 31, 30, 31, 30, 31, 31, 30, 31, 30, 31].getD (month - 1) 0)

/-- Specification-side: the string is a well-formed `YYYY-MM-DD` calendar date. -/
def isCalendarDate (s : String) : Bool :=
  match s.data with
  | [y1, y2, y3, y4, p, m1, m2, q, d1, d2] =>
      y1.isDigit && y2.isDigit && y3.isDigit && y4.isDigit && p == '-' &&
      m1.isDigit && m2.isDigit && q == '-' && d1.isDigit && d2.isDigit &&
      decide (1 ≤ digitVal m1 * 10 + digitVal m2) && decide (digitVal m1 * 10 + digitVal m2 ≤ 12) &&
      decide (1 ≤ digitVal d1 * 10 + digitVal d2) &&
      decide (digitVal d1 * 10 + digitVal d2 ≤
        calendarDays (digitVal y1 * 1000 + digitVal y2 * 100 + digitVal y3 * 10 + digitVal y4)
          (digitVal m1 * 10 + digitVal m2))
  | _ => false

/-- Specification-side: the string is a well-formed `HH:MM` time of day (two digits,
colon, two digits, hour below 24, minute below 60). -/
def isClockHHMM (s : String) : Bool :=
  match s.data with
  | [h1, h2, p, m1, m2] =>
      h1.isDigit && h2.isDigit && p == ':' && m1.isDigit && m2.isDigit &&
      decide (digitVal h1 * 10 + digitVal h2 < 24) && decide (digitVal m1 * 10 + digitVal m2 < 60)
  | _ => false

/-- A time of day written `H:MM`: a single hour digit, colon, two minute digits below
60. -/
def isClockHMM (s : String) : Bool :=
  match s.data with
  | [h1, p, m1, m2] =>
      h1.isDigit && p == ':' && m1.isDigit && m2.isDigit &&
      decide (digitVal m1 * 10 + digitVal m2 < 60)
  | _ => false

/-- Specification-side: the time of day, in seconds since midnight, that a string of the
form `HH:MM` denotes. -/
def clockSeconds (s : String) : Nat :=
  match s.data with
  | [h1, h2, _, m1, m2] =>
      (digitVal h1 * 10 + digitVal h2) * 3600 + (digitVal m1 * 10 + digitVal m2) * 60
  | _ => 0

/-- Specification-side: the calendar date that a string of the form `YYYY-MM-DD`
denotes. -/
def calendarDateOf (s : String) : Date :=
  match s.data with
  | [y1, y2, y3, y4, _, m1, m2, _, d1, d2] =>
      { year := digitVal y1 * 1000 + digitVal y2 * 100 + digitVal y3 * 10 + digitVal y4
        month := digitVal m1 * 10 + digitVal m2
        day := digitVal d1 * 10 + digitVal d2 }
  | _ => { year := 0, month := 0, day := 0 }

/-! ## Databases and inputs used in the examples -/

/-- The date 2024-01-01. -/
def day1 : Date := { year := 2024, month := 1, day := 1 }

/-- Room `A` with no reservation. -/
def dbFree : DB := { rooms := [⟨1, "A", 10⟩], reservations := [], nextId := 1, log := [] }

/-- Room `A` booked 10:00-11:00 on 2024-01-01. -/
def dbBooked : DB :=
  { rooms := [⟨1, "A", 10⟩], reservations := [⟨1, 1, day1, 36000, 39600⟩],
    nextId := 2, log := [] }

/-- Room `A` booked 09:00-10:00 and 10:00-11:00 on 2024-01-01. -/
def dbTwo : DB :=
  { rooms := [⟨1, "A", 10⟩],
    reservations := [⟨1, 1, day1, 32400, 36000⟩, ⟨2, 1, day1, 36000, 39600⟩],
    nextId := 3, log := [] }

/-- Rooms `B` and `A`; `B` booked 09:00-10:00 and `A` booked 10:00-11:00 on 2024-01-01. -/
def dbRooms : DB :=
  { rooms := [⟨1, "B", 10⟩, ⟨2, "A", 4⟩],
    reservations := [⟨1, 1, day1, 32400, 36000⟩, ⟨2, 2, day1, 36000, 39600⟩],
    nextId := 3, log := [] }

/-- Room `A` booked 00:00-01:00 on 2024-01-01. -/
def dbNight : DB :=
  { rooms := [⟨1, "A", 10⟩], reservations := [⟨1, 1, day1, 0, 3600⟩],
    nextId := 2, log := [] }

/-- The date filter used in the examples: the filter string read as `YYYY-MM-DD`. -/
def dateMatchesISO (s : String) (d : Date) : Bool := decide (timeParseDate s = some d)

/-! ## The parsers accept exactly the well-formed strings -/

theorem getnum_fixed_some {l rest : List Char} {n : Nat} (h : getnum l true = some (n, rest)) :
    ∃ c d, l = c :: d :: rest ∧ c.isDigit = true ∧ d.isDigit = true ∧
      n = digitVal c * 10 + digitVal d := by
  rcases l with _ | ⟨c, _ | ⟨d, tl⟩⟩
  · simp [getnum] at h
  · simp [getnum] at h
  · by_cases hc : c.isDigit = true <;> by_cases hd : d.isDigit = true <;>
      simp [getnum, hc, hd] at h
    exact ⟨c, d, by rw [h.2], hc, hd, h.1.symm⟩

theorem getnum_free_some {l rest : List Char} {n : Nat} (h : getnum l false = some (n, rest)) :
    (∃ c d, l = c :: d :: rest ∧ c.isDigit = true ∧ d.isDigit = true ∧
      n = digitVal c * 10 + digitVal d) ∨
    (∃ c, l = c :: rest ∧ c.isDigit = true ∧ n = digitVal c ∧
      ∀ d tl, rest = d :: tl → d.isDigit = false) := by
  rcases l with _ | ⟨c, _ | ⟨d, tl⟩⟩
  · simp [getnum] at h
  · by_cases hc : c.isDigit = true <;> simp [getnum, hc] at h
    exact Or.inr ⟨c, by rw [h.2], hc, h.1.symm, by intro d tl e; rw [h.2] at e; cases e⟩
  · by_cases hc : c.isDigit = true <;> by_cases hd : d.isDigit = true <;>
      simp [getnum, hc, hd] at h
    · exact Or.inl ⟨c, d, by rw [h.2], hc, hd, h.1.symm⟩
    · refine Or.inr ⟨c, by rw [h.2], hc, h.1.symm, ?_⟩
      intro d2 tl2 e
      rw [← h.2] at e
      cases e
      simpa using hd

theorem skip_some {l rest : List Char} {lit : Char} (h : skip l lit = some rest) :
    l = lit :: rest := by
  rcases l with _ | ⟨c, tl⟩
  · simp [skip] at h
  · by_cases hc : c = lit <;> simp [skip, hc] at h
    rw [hc, h]

theorem timeParseClock_some {s : String} {v : Nat} (h : timeParseClock s = some v) :
    (∃ h1 h2 m1 m2, s.data = [h1, h2, ':', m1, m2] ∧ h1.isDigit = true ∧ h2.isDigit = true ∧
        m1.isDigit = true ∧ m2.isDigit = true ∧ digitVal h1 * 10 + digitVal h2 < 24 ∧
        digitVal m1 * 10 + digitVal m2 < 60 ∧
        v = (digitVal h1 * 10 + digitVal h2) * 3600 + (digitVal m1 * 10 + digitVal m2) * 60) ∨
    (∃ h1 m1 m2, s.data = [h1, ':', m1, m2] ∧ h1.isDigit = true ∧
        m1.isDigit = true ∧ m2.isDigit = true ∧
        digitVal m1 * 10 + digitVal m2 < 60 ∧
        v = digitVal h1 * 3600 + (digitVal m1 * 10 + digitVal m2) * 60) := by
  unfold timeParseClock at h
  cases e1 : getnum s.data false with
  | none => simp [e1] at h
  | some p1 =>
    obtain ⟨hour, v1⟩ := p1
    simp only [e1] at h
    by_cases hh : 24 ≤ hour
    · simp [hh] at h
    · simp only [hh, if_false] at h
      cases e2 : skip v1 ':' with
      | none => simp [e2] at h
      | some v2 =>
        simp only [e2] at h
        cases e3 : getnum v2 true with
        | none => simp [e3] at h
        | some p3 =>
          obtain ⟨min, v3⟩ := p3
          simp only [e3] at h
          by_cases hm : 60 ≤ min
          · simp [hm] at h
          · simp only [hm, if_false] at h
            by_cases hv : v3 = []
            · simp only [hv, ne_eq, not_true_eq_false, if_false, Option.some.injEq] at h
              subst hv
              obtain ⟨m1, m2, rfl, dm1, dm2, rfl⟩ := getnum_fixed_some e3
              have := skip_some e2
              subst this
              rcases getnum_free_some e1 with ⟨c, d, hl, dc, dd, rfl⟩ | ⟨c, hl, dc, rfl, _⟩
              · exact Or.inl ⟨c, d, m1, m2, hl, dc, dd, dm1, dm2, by omega, by omega, h.symm⟩
              · exact Or.inr ⟨c, m1, m2, hl, dc, dm1, dm2, by omega, h.symm⟩
            · simp [hv] at h

theorem timeParseClock_wellFormed {s : String} {v : Nat} (h : timeParseClock s = some v) :
    (isClockHHMM s || isClockHMM s) = true := by
  rcases timeParseClock_some h with ⟨h1, h2, m1, m2, hl, a, b, c, d, e, f, _⟩ |
    ⟨h1, m1, m2, hl, a, c, d, f, _⟩
  · simp [isClockHHMM, hl, a, b, c, d, e, f]
  · simp [isClockHHMM, isClockHMM, hl, a, c, d, f]

theorem daysIn_eq_calendarDays (year month : Nat) (h1 : 1 ≤ month) (h2 : month ≤ 12) :
    daysIn month year = calendarDays year month := by
  have hleap : (isLeap year = true) ↔ ((year % 4 = 0 ∧ year % 100 ≠ 0) ∨ year % 400 = 0) := by
    simp only [isLeap, Bool.and_eq_true, Bool.or_eq_true, beq_iff_eq, bne_iff_ne, ne_eq]
    omega
  interval_cases month <;> simp [daysIn, calendarDays, hleap]

theorem timeParseDate_some {s : String} {date : Date} (h : timeParseDate s = some date) :
    ∃ y1 y2 y3 y4 m1 m2 d1 d2, s.data = [y1, y2, y3, y4, '-', m1, m2, '-', d1, d2] ∧
      y1.isDigit = true ∧ y2.isDigit = true ∧ y3.isDigit = true ∧ y4.isDigit = true ∧
      m1.isDigit = true ∧ m2.isDigit = true ∧ d1.isDigit = true ∧ d2.isDigit = true ∧
      date.year = digitVal y1 * 1000 + digitVal y2 * 100 + digitVal y3 * 10 + digitVal y4 ∧
      date.month = digitVal m1 * 10 + digitVal m2 ∧
      date.day = digitVal d1 * 10 + digitVal d2 ∧
      1 ≤ date.month ∧ date.month ≤ 12 ∧ 1 ≤ date.day ∧
      date.day ≤ daysIn date.month date.year := by
  unfold timeParseDate at h
  rcases hs : s.data with _ | ⟨a, _ | ⟨b, _ | ⟨c, _ | ⟨d, v1⟩⟩⟩⟩
  · simp [hs] at h
  · simp [hs] at h
  · simp [hs] at h
  · simp [hs] at h
  · simp only [hs] at h
    cases e0 : atoi4 a b c d with
    | none => simp [e0] at h
    | some year =>
      simp only [e0] at h
      cases e1 : skip v1 '-' with
      | none => simp [e1] at h
      | some v2 =>
        simp only [e1] at h
        cases e2 : getnum v2 true with
        | none => simp [e2] at h
        | some p2 =>
          obtain ⟨month, v3⟩ := p2
          simp only [e2] at h
          by_cases hm : month = 0 ∨ 12 < month
          · simp [hm] at h
          · simp only [hm, if_false] at h
            cases e3 : skip v3 '-' with
            | none => simp [e3] at h
            | some v4 =>
              simp only [e3] at h
              cases e4 : getnum v4 true with
              | none => simp [e4] at h
              | some p4 =>
                obtain ⟨day, v5⟩ := p4
                simp only [e4] at h
                by_cases hv : v5 = []
                · subst hv
                  by_cases hd : day < 1 ∨ day > daysIn month year
                  · rw [if_neg (by simp), if_pos hd] at h
                    cases h
                  · rw [if_neg (by simp), if_neg hd] at h
                    simp only [Option.some.injEq] at h
                    subst h
                    obtain ⟨d1, d2, rfl, dd1, dd2, rfl⟩ := getnum_fixed_some e4
                    have := skip_some e3
                    subst this
                    obtain ⟨m1, m2, rfl, dm1, dm2, rfl⟩ := getnum_fixed_some e2
                    have := skip_some e1
                    subst this
                    unfold atoi4 at e0
                    by_cases hy : (a.isDigit && b.isDigit && c.isDigit && d.isDigit) = true
                    · simp only [hy, if_true, Option.some.injEq] at e0
                      simp only [Bool.and_eq_true] at hy
                      refine ⟨a, b, c, d, m1, m2, d1, d2, rfl, hy.1.1.1, hy.1.1.2, hy.1.2, hy.2,
                        dm1, dm2, dd1, dd2, e0.symm, rfl, rfl, ?_, ?_, ?_, ?_⟩ <;>
                        simp only <;> omega
                    · simp [hy] at e0
                · simp [hv] at h

theorem timeParseDate_wellFormed {s : String} {date : Date} (h : timeParseDate s = some date) :
    isCalendarDate s = true := by
  obtain ⟨y1, y2, y3, y4, m1, m2, d1, d2, hl, a1, a2, a3, a4, b1, b2, c1, c2, hy, hm, hd,
    k1, k2, k3, k4⟩ := timeParseDate_some h
  rw [daysIn_eq_calendarDays _ _ k1 k2] at k4
  rw [hm] at k1 k2
  rw [hd] at k3
  rw [hd, hm, hy] at k4
  simp [isCalendarDate, hl, a1, a2, a3, a4, b1, b2, c1, c2, k1, k2, k3, k4]

theorem parseDate_wellFormed {s : String} {date : Date} (h : parseDate s = some date) :
    isCalendarDate s = true := by
  unfold parseDate at h
  cases e : timeParseDate s with
  | none => simp [e] at h
  | some d => exact timeParseDate_wellFormed e

theorem timeParseClock_of_HHMM {s : String} (h : isClockHHMM s = true) :
    ∃ v, timeParseClock s = some v ∧ v < 86400 := by
  unfold isClockHHMM at h
  split at h
  · rename_i h1 h2 p m1 m2 hl
    simp only [Bool.and_eq_true, beq_iff_eq, decide_eq_true_eq] at h
    obtain ⟨⟨⟨⟨⟨⟨a, b⟩, c⟩, d⟩, e⟩, f⟩, g⟩ := h
    subst c
    refine ⟨(digitVal h1 * 10 + digitVal h2) * 3600 + (digitVal m1 * 10 + digitVal m2) * 60, ?_, by omega⟩
    have hf : ¬ 24 ≤ digitVal h1 * 10 + digitVal h2 := by omega
    have hg : ¬ 60 ≤ digitVal m1 * 10 + digitVal m2 := by omega
    simp [timeParseClock, hl, getnum, skip, a, b, d, e, hf, hg]
  · cases h

theorem timeParseDate_of_calendarDate {s : String} (h : isCalendarDate s = true) :
    ∃ date, timeParseDate s = some date := by
  unfold isCalendarDate at h
  split at h
  · rename_i y1 y2 y3 y4 p m1 m2 q d1 d2 hl
    simp only [Bool.and_eq_true, beq_iff_eq, decide_eq_true_eq] at h
    obtain ⟨⟨⟨⟨⟨⟨⟨⟨⟨⟨⟨⟨⟨a1, a2⟩, a3⟩, a4⟩, hp⟩, b1⟩, b2⟩, hq⟩, c1⟩, c2⟩, k1⟩, k2⟩, k3⟩, k4⟩ := h
    subst hp hq
    rw [← daysIn_eq_calendarDays _ _ k1 k2] at k4
    have hm : ¬ (digitVal m1 * 10 + digitVal m2 = 0 ∨ 12 < digitVal m1 * 10 + digitVal m2) := by
      omega
    have hd : ¬ (digitVal d1 * 10 + digitVal d2 < 1 ∨ digitVal d1 * 10 + digitVal d2 >
        daysIn (digitVal m1 * 10 + digitVal m2)
          (digitVal y1 * 1000 + digitVal y2 * 100 + digitVal y3 * 10 + digitVal y4)) := by
      omega
    refine ⟨{ year := digitVal y1 * 1000 + digitVal y2 * 100 + digitVal y3 * 10 + digitVal y4,
              month := digitVal m1 * 10 + digitVal m2, day := digitVal d1 * 10 + digitVal d2 }, ?_⟩
    simp only [timeParseDate, hl, atoi4, a1, a2, a3, a4, Bool.and_self, if_true, skip, getnum,
      b1, b2, c1, c2, hm, hd, if_false, ne_eq, not_true_eq_false]
  · cases h

theorem getRoomIDByName_snd (db : DB) (name : String) :
    (getRoomIDByName db name).2 = db.issue .selectRoomIdByName := rfl

theorem createReservation_parsed (db : DB) (roomName d s e : String) (pd : Date) (a b : Nat)
    (roomID : Int) (hd : parseDate d = some pd) (hs : timeParseClock s = some a)
    (he : timeParseClock e = some b) (hr : (getRoomIDByName db roomName).1 = some roomID) :
    createReservation db roomName d s e =
      if countConflicts db roomID pd a b = 0 then
        (.ok successMessage,
          insertReservation ((db.issue .selectRoomIdByName).issue .countConflicts) roomID pd a b)
      else (.error .notAvailable, (db.issue .selectRoomIdByName).issue .countConflicts) := by
  have hg : getRoomIDByName db roomName = (some roomID, db.issue .selectRoomIdByName) :=
    Prod.ext hr rfl
  unfold createReservation
  simp only [hd, hs, he, hg, isRoomAvailable]
  have hc : countConflicts (db.issue .selectRoomIdByName) roomID pd a b =
      countConflicts db roomID pd a b := rfl
  rw [hc]
  by_cases h0 : countConflicts db roomID pd a b = 0
  · simp [h0]
  · have hb : (countConflicts db roomID pd a b == 0) = false := by simpa using h0
    rw [hb, if_neg h0]

/-! ## The conflict check -/

/-- C10: for a request with start before end, the clause of the count query holds for a
stored row exactly when the row overlaps the request in the half-open sense and does not
lie strictly inside it. -/
theorem conflictClause_iff (startTime endTime : Nat) (r : ReservationRow)
    (h : startTime < endTime) :
    conflictClause startTime endTime r = true ↔
      (intervalsOverlap startTime endTime r.start_time r.end_time = true ∧
        ¬ (startTime < r.start_time ∧ r.end_time < endTime)) := by
  simp only [conflictClause, intervalsOverlap, Bool.or_eq_true, Bool.and_eq_true,
    decide_eq_true_eq]
  omega

/-- Witness for C10: the request 09:00-10:30 against the stored row 10:00-11:00. -/
theorem conflictClause_iff_witness :
    conflictClause 32400 37800 ⟨1, 1, day1, 36000, 39600⟩ = true ↔
      (intervalsOverlap 32400 37800 36000 39600 = true ∧ ¬ (32400 < 36000 ∧ 39600 < 37800)) :=
  conflictClause_iff 32400 37800 ⟨1, 1, day1, 36000, 39600⟩ (by decide)

/-- C1 (failing input): room 1 holds 10:00-11:00 on 2024-01-01; for the request
09:00-12:00 `isRoomAvailable` answers that the room is free, although the stored row
overlaps the request, and `createReservation` stores the second reservation. -/
theorem isRoomAvailable_misses_contained :
    (isRoomAvailable dbBooked 1 day1 32400 43200).1 = true ∧
    (∃ r ∈ dbBooked.reservations, r.room_id = 1 ∧ r.date = day1 ∧
      intervalsOverlap 32400 43200 r.start_time r.end_time = true) ∧
    (createReservation dbBooked "A" "2024-01-01" "09:00" "12:00").1 = .ok successMessage := by
  refine ⟨by decide, by decide, rfl⟩

/-- C2 (failing input): the database with room `A` booked 10:00-11:00 satisfies the
invariant; after `createReservation` for 09:00-12:00 on the same room and date it holds
two overlapping reservations. -/
theorem run_create_breaks_NoOverlap :
    NoOverlap dbBooked ∧
    (run dbBooked [.create "A" "2024-01-01" "09:00" "12:00"]).reservations =
      [⟨1, 1, day1, 36000, 39600⟩, ⟨2, 1, day1, 32400, 43200⟩] ∧
    ¬ NoOverlap (run dbBooked [.create "A" "2024-01-01" "09:00" "12:00"]) := by
  refine ⟨by decide, by decide, by decide⟩

/-- Before 23:00 the window of `isRoomAvailableList` is the hour after the requested
time. -/
theorem listWindow_before_2300 (timeSlot : Nat) (h : timeSlot < 82800) :
    listWindow timeSlot = (timeSlot, timeSlot + 3600) := by
  simp only [listWindow, Prod.mk.injEq, true_and]
  omega

/-- C9 (failing input): for 23:30 the window of `isRoomAvailableList` is
23:30:00 to 00:30:00, whose end is before its start; a room booked 00:00-01:00, which
does not overlap 23:30-24:30, is then counted as taken and `listAvailableRooms` leaves
it out. -/
theorem listWindow_wraps_at_2330 :
    timeParseClock "23:30" = some 84600 ∧
    listWindow 84600 = (84600, 1800) ∧
    ¬ ((listWindow 84600).1 < (listWindow 84600).2) ∧
    intervalsOverlap 84600 (84600 + 3600) 0 3600 = false ∧
    (isRoomAvailableList dbNight 1 day1 84600).1 = false ∧
    (listAvailableRooms dbNight "" "" "2024-01-01" "23:30").1 = .ok [] := by
  refine ⟨by decide, by decide, by decide, by decide, by decide, rfl⟩

/-! ## Creating and cancelling reservations -/
theorem countConflicts_append (db : DB) (row : ReservationRow) (roomID : Int) (date : Date)
    (s e : Nat) (l : List Stmt) (n : Int) :
    countConflicts { rooms := db.rooms, reservations := db.reservations ++ [row],
                     nextId := n, log := l } roomID date s e =
      countConflicts db roomID date s e +
        (if (decide (row.room_id = roomID) && decide (row.date = date) &&
          conflictClause s e row) = true then 1 else 0) := by
  simp only [countConflicts, List.filter_append, List.length_append, List.filter_cons,
    List.filter_nil]
  split <;> simp

theorem countConflicts_free (db : DB) (roomID : Int) (date : Date) (s e : Nat)
    (hfree : ∀ r ∈ db.reservations, ¬ (r.room_id = roomID ∧ r.date = date)) :
    countConflicts db roomID date s e = 0 := by
  simp only [countConflicts, List.length_eq_zero, List.filter_eq_nil_iff]
  intro r hr
  have := hfree r hr
  simp only [Bool.and_eq_true, decide_eq_true_eq]
  tauto

/-- C3: back-to-back bookings are allowed.  On a database where the room has no
reservation on the date, `createReservation` for `[a,b)` followed by `createReservation`
for `[b,c)` with `a < b < c` both return the success message, and the table then holds
the old rows followed by the two new ones. -/
theorem createReservation_back_to_back (db : DB) (roomName d sa sb sc : String) (pd : Date)
    (a b c : Nat) (roomID : Int)
    (hd : parseDate d = some pd) (ha : timeParseClock sa = some a)
    (hb : timeParseClock sb = some b) (hc : timeParseClock sc = some c)
    (hroom : (getRoomIDByName db roomName).1 = some roomID)
    (_hab : a < b) (hbc : b < c)
    (hfree : ∀ r ∈ db.reservations, ¬ (r.room_id = roomID ∧ r.date = pd)) :
    (createReservation db roomName d sa sb).1 = .ok successMessage ∧
    (createReservation (createReservation db roomName d sa sb).2 roomName d sb sc).1 =
      .ok successMessage ∧
    (createReservation (createReservation db roomName d sa sb).2 roomName d sb sc).2.reservations =
      db.reservations ++
        [{ id := db.nextId, room_id := roomID, date := pd, start_time := a, end_time := b },
         { id := db.nextId + 1, room_id := roomID, date := pd, start_time := b, end_time := c }] ∧
    (createReservation (createReservation db roomName d sa sb).2 roomName d sb sc).2.rooms =
      db.rooms := by
  have h1 := createReservation_parsed db roomName d sa sb pd a b roomID hd ha hb hroom
  rw [if_pos (countConflicts_free db roomID pd a b hfree)] at h1
  rw [h1]
  have hroom2 : (getRoomIDByName (insertReservation
      ((db.issue .selectRoomIdByName).issue .countConflicts) roomID pd a b) roomName).1 =
      some roomID := hroom
  have h2 := createReservation_parsed _ roomName d sb sc pd b c roomID hd hb hc hroom2
  have hcount : countConflicts (insertReservation
      ((db.issue .selectRoomIdByName).issue .countConflicts) roomID pd a b) roomID pd b c = 0 := by
    have := countConflicts_append db
      { id := db.nextId, room_id := roomID, date := pd, start_time := a, end_time := b }
      roomID pd b c (db.log ++ [Stmt.selectRoomIdByName] ++ [Stmt.countConflicts] ++
        [Stmt.insertReservation]) (db.nextId + 1)
    simp only [insertReservation, DB.issue]
    rw [this, countConflicts_free db roomID pd b c hfree]
    have hcl : conflictClause b c
        { id := db.nextId, room_id := roomID, date := pd, start_time := a, end_time := b } =
        false := by
      simp only [conflictClause, Bool.or_eq_false_iff, Bool.and_eq_false_iff,
        decide_eq_false_iff_not]
      omega
    simp [hcl]
  rw [if_pos hcount] at h2
  rw [h2]
  refine ⟨rfl, rfl, ?_, rfl⟩
  simp [insertReservation, DB.issue]

/-- Witness for C3: 09:00-10:00 then 10:00-11:00 in room `A` on 2024-01-01. -/
theorem createReservation_back_to_back_witness :
    (createReservation dbFree "A" "2024-01-01" "09:00" "10:00").1 = .ok successMessage ∧
    (createReservation (createReservation dbFree "A" "2024-01-01" "09:00" "10:00").2
      "A" "2024-01-01" "10:00" "11:00").1 = .ok successMessage ∧
    (createReservation (createReservation dbFree "A" "2024-01-01" "09:00" "10:00").2
      "A" "2024-01-01" "10:00" "11:00").2.reservations =
      dbFree.reservations ++
        [{ id := dbFree.nextId, room_id := 1, date := day1, start_time := 32400, end_time := 36000 },
         { id := dbFree.nextId + 1, room_id := 1, date := day1, start_time := 36000,
           end_time := 39600 }] ∧
    (createReservation (createReservation dbFree "A" "2024-01-01" "09:00" "10:00").2
      "A" "2024-01-01" "10:00" "11:00").2.rooms = dbFree.rooms :=
  createReservation_back_to_back dbFree "A" "2024-01-01" "09:00" "10:00" "11:00" day1
    32400 36000 39600 1 (by decide) (by decide) (by decide) (by decide) (by decide)
    (by decide) (by decide) (by decide)

theorem countConflicts_ne_zero_iff (db : DB) (roomID : Int) (date : Date) (s e : Nat) :
    countConflicts db roomID date s e ≠ 0 ↔
      ∃ r ∈ db.reservations, r.room_id = roomID ∧ r.date = date ∧ conflictClause s e r = true := by
  simp only [countConflicts, ne_eq, List.length_eq_zero, List.filter_eq_nil_iff, not_forall,
    Bool.and_eq_true, decide_eq_true_eq, not_not]
  constructor
  · rintro ⟨r, hr, ⟨h1, h2⟩, h3⟩
    exact ⟨r, hr, h1, h2, h3⟩
  · rintro ⟨r, hr, h1, h2, h3⟩
    exact ⟨r, hr, ⟨h1, h2⟩, h3⟩

/-- C4 (as stated, refuted): on a database with room `A` and no reservations,
`createReservation` with start 10:00 and end 09:00 succeeds and stores a row whose
start time is after its end time. -/
theorem createReservation_accepts_start_after_end :
    timeParseClock "10:00" = some 36000 ∧ timeParseClock "09:00" = some 32400 ∧
    (createReservation dbFree "A" "2024-01-01" "10:00" "09:00").1 = .ok successMessage ∧
    (createReservation dbFree "A" "2024-01-01" "10:00" "09:00").2.reservations =
      [{ id := 1, room_id := 1, date := day1, start_time := 36000, end_time := 32400 }] := by
  refine ⟨by decide, by decide, rfl, by decide⟩

/-- C4 (amended): `createReservation` has no check of start against end.  With a valid
date, well-formed times with start not before end and an existing room, it returns the
not-available error and stores nothing exactly when the conflict query finds a row of
that room and date; otherwise it succeeds and appends the reservation as requested. -/
theorem createReservation_start_ge_end (db : DB) (roomName d s e : String) (pd : Date)
    (a b : Nat) (roomID : Int)
    (hd : parseDate d = some pd) (hs : timeParseClock s = some a)
    (he : timeParseClock e = some b)
    (hroom : (getRoomIDByName db roomName).1 = some roomID) (_hge : b ≤ a) :
    ((∃ r ∈ db.reservations, r.room_id = roomID ∧ r.date = pd ∧ conflictClause a b r = true) →
      (createReservation db roomName d s e).1 = .error .notAvailable ∧
      (createReservation db roomName d s e).2.reservations = db.reservations) ∧
    ((¬ ∃ r ∈ db.reservations, r.room_id = roomID ∧ r.date = pd ∧ conflictClause a b r = true) →
      (createReservation db roomName d s e).1 = .ok successMessage ∧
      (createReservation db roomName d s e).2.reservations = db.reservations ++
        [{ id := db.nextId, room_id := roomID, date := pd, start_time := a, end_time := b }]) := by
  have h1 := createReservation_parsed db roomName d s e pd a b roomID hd hs he hroom
  rw [← countConflicts_ne_zero_iff]
  constructor
  · intro hc
    rw [h1, if_neg hc]
    exact ⟨rfl, rfl⟩
  · intro hc
    rw [h1, if_pos (not_not.mp hc)]
    exact ⟨rfl, rfl⟩

/-- Witness for C4 (amended): start 10:00 and end 09:00, accepted on a room without
reservations and refused on a room holding 10:00-11:00. -/
theorem createReservation_start_ge_end_witness :
    ((createReservation dbFree "A" "2024-01-01" "10:00" "09:00").1 = .ok successMessage ∧
      (createReservation dbFree "A" "2024-01-01" "10:00" "09:00").2.reservations =
        dbFree.reservations ++
          [{ id := dbFree.nextId, room_id := 1, date := day1, start_time := 36000,
             end_time := 32400 }]) ∧
    ((createReservation dbTwo "A" "2024-01-01" "10:00" "09:00").1 = .error .notAvailable ∧
      (createReservation dbTwo "A" "2024-01-01" "10:00" "09:00").2.reservations =
        dbTwo.reservations) :=
  ⟨(createReservation_start_ge_end dbFree "A" "2024-01-01" "10:00" "09:00" day1 36000 32400 1
      (by decide) (by decide) (by decide) (by decide) (by decide)).2 (by decide),
   (createReservation_start_ge_end dbTwo "A" "2024-01-01" "10:00" "09:00" day1 36000 32400 1
      (by decide) (by decide) (by decide) (by decide) (by decide)).1 (by decide)⟩

/-- C5 (as stated, refuted): `9:30` is not of the form `HH:MM`, yet `createReservation`
accepts it as a start time, issues its statements and stores the reservation. -/
theorem createReservation_accepts_one_digit_hour :
    isClockHHMM "9:30" = false ∧
    (createReservation dbFree "A" "2024-01-01" "9:30" "10:00").1 = .ok successMessage ∧
    (createReservation dbFree "A" "2024-01-01" "9:30" "10:00").2.reservations =
      [{ id := 1, room_id := 1, date := day1, start_time := 34200, end_time := 36000 }] ∧
    (createReservation dbFree "A" "2024-01-01" "9:30" "10:00").2.log =
      [Stmt.selectRoomIdByName, Stmt.countConflicts, Stmt.insertReservation] := by
  refine ⟨by decide, rfl, by decide, by decide⟩

/-- C5 (amended): when the date string is not a well-formed `YYYY-MM-DD` calendar date,
or the start or end string is neither `HH:MM` nor `H:MM` with hour below 24 and minute
below 60, `createReservation` returns a validation error and the database, its
statement log included, is exactly as before. -/
theorem createReservation_rejects_malformed (db : DB) (roomName d s e : String)
    (h : isCalendarDate d = false ∨ (isClockHHMM s || isClockHMM s) = false ∨
      (isClockHHMM e || isClockHMM e) = false) :
    ∃ err, err.isValidation = true ∧ createReservation db roomName d s e = (.error err, db) := by
  unfold createReservation
  cases hd : parseDate d with
  | none => exact ⟨.dateParse, rfl, rfl⟩
  | some pd =>
    cases hs : timeParseClock s with
    | none => exact ⟨.startTimeFormat, rfl, rfl⟩
    | some a =>
      cases he : timeParseClock e with
      | none => exact ⟨.endTimeFormat, rfl, rfl⟩
      | some b =>
        exfalso
        have w1 := parseDate_wellFormed hd
        have w2 := timeParseClock_wellFormed hs
        have w3 := timeParseClock_wellFormed he
        rw [w1, w2, w3] at h
        simp at h

/-- Witness for C5 (amended): the date `2024-13-40` and the time `25:99`. -/
theorem createReservation_rejects_malformed_witness :
    (∃ err, err.isValidation = true ∧
      createReservation dbFree "A" "2024-13-40" "09:00" "10:00" = (.error err, dbFree)) ∧
    (∃ err, err.isValidation = true ∧
      createReservation dbFree "A" "2024-01-01" "25:99" "10:00" = (.error err, dbFree)) :=
  ⟨createReservation_rejects_malformed dbFree "A" "2024-13-40" "09:00" "10:00"
      (Or.inl (by decide)),
   createReservation_rejects_malformed dbFree "A" "2024-01-01" "25:99" "10:00"
      (Or.inr (Or.inl (by decide)))⟩

theorem length_filter_ne_of_nodup (l : List ReservationRow) (rid : Int)
    (hn : (l.map (fun r => r.id)).Nodup) (hex : ∃ r ∈ l, r.id = rid) :
    (l.filter (fun r => !decide (r.id = rid))).length + 1 = l.length := by
  induction l with
  | nil => obtain ⟨r, hr, _⟩ := hex; cases hr
  | cons x xs ih =>
    simp only [List.map_cons, List.nodup_cons, List.mem_map, not_exists, not_and] at hn
    by_cases hx : x.id = rid
    · have hall : ∀ r ∈ xs, (!decide (r.id = rid)) = true := by
        intro r hr
        have := hn.1 r hr
        simp only [Bool.not_eq_true', decide_eq_false_iff_not]
        intro h
        exact this (h.trans hx.symm)
      simp [List.filter_cons, hx, List.filter_eq_self.mpr hall]
    · have hex2 : ∃ r ∈ xs, r.id = rid := by
        obtain ⟨r, hr, hrid⟩ := hex
        rcases List.mem_cons.mp hr with rfl | hr
        · exact absurd hrid hx
        · exact ⟨r, hr, hrid⟩
      have := ih hn.2 hex2
      simp [List.filter_cons, hx]
      omega

/-- C6: `CancelReservation` on an id no reservation has reports not-found and leaves the
rooms, the reservations and the id counter as they were; on an id that exists it reports
the cancellation, the table is the old one without the rows of that id, every other row
stays in place, and with unique ids exactly one row is gone. -/
theorem CancelReservation_spec (db : DB) (reservationID : Int) :
    ((¬ ∃ r ∈ db.reservations, r.id = reservationID) →
      (CancelReservation db reservationID).1 = .notFound ∧
      (CancelReservation db reservationID).2.reservations = db.reservations ∧
      (CancelReservation db reservationID).2.rooms = db.rooms ∧
      (CancelReservation db reservationID).2.nextId = db.nextId) ∧
    ((∃ r ∈ db.reservations, r.id = reservationID) →
      (CancelReservation db reservationID).1 = .cancelled ∧
      (CancelReservation db reservationID).2.reservations =
        db.reservations.filter (fun r => !decide (r.id = reservationID)) ∧
      (∀ r, r ∈ (CancelReservation db reservationID).2.reservations ↔
        (r ∈ db.reservations ∧ r.id ≠ reservationID)) ∧
      (CancelReservation db reservationID).2.rooms = db.rooms ∧
      ((db.reservations.map (fun r => r.id)).Nodup →
        (CancelReservation db reservationID).2.reservations.length + 1 =
          db.reservations.length)) := by
  have hany : db.reservations.any (fun r => decide (r.id = reservationID)) = true ↔
      ∃ r ∈ db.reservations, r.id = reservationID := by
    simp [List.any_eq_true]
  constructor
  · intro hno
    have hf : db.reservations.any (fun r => decide (r.id = reservationID)) = false := by
      rw [← Bool.not_eq_true, hany]; exact hno
    have hres : CancelReservation db reservationID = (.notFound, db.issue .existsReservation) := by
      simp [CancelReservation, hf]
    rw [hres]
    exact ⟨rfl, rfl, rfl, rfl⟩
  · intro hex
    have ht := hany.mpr hex
    have hres : CancelReservation db reservationID =
        (.cancelled,
          { rooms := db.rooms
            reservations := db.reservations.filter (fun r => !decide (r.id = reservationID))
            nextId := db.nextId
            log := db.log ++ [Stmt.existsReservation] ++ [Stmt.deleteReservation] }) := by
      simp [CancelReservation, ht, DB.issue]
    rw [hres]
    refine ⟨rfl, rfl, ?_, rfl, ?_⟩
    · intro r
      simp [List.mem_filter]
    · intro hn
      exact length_filter_ne_of_nodup db.reservations reservationID hn hex

/-- Witness for C6: cancelling id 7 (absent) and id 1 (present) on a table with the ids
1 and 2. -/
theorem CancelReservation_spec_witness :
    ((CancelReservation dbTwo 7).1 = .notFound ∧
      (CancelReservation dbTwo 7).2.reservations = dbTwo.reservations ∧
      (CancelReservation dbTwo 7).2.rooms = dbTwo.rooms ∧
      (CancelReservation dbTwo 7).2.nextId = dbTwo.nextId) ∧
    ((CancelReservation dbTwo 1).1 = .cancelled ∧
      (CancelReservation dbTwo 1).2.reservations =
        dbTwo.reservations.filter (fun r => !decide (r.id = 1))) :=
  ⟨(CancelReservation_spec dbTwo 7).1 (by decide),
   ⟨((CancelReservation_spec dbTwo 1).2 (by decide)).1,
    ((CancelReservation_spec dbTwo 1).2 (by decide)).2.1⟩⟩

theorem isRoomAvailableList_fst (db1 db2 : DB) (h : db1.reservations = db2.reservations)
    (roomID : Int) (date : Date) (slot : Nat) :
    (isRoomAvailableList db1 roomID date slot).1 = (isRoomAvailableList db2 roomID date slot).1 := by
  simp only [isRoomAvailableList, countConflicts, h]

theorem foldl_listStep (db : DB) (date : Date) (slot : Nat) (rooms : List Room) :
    ∀ (acc : List Room) (dbx : DB), dbx.reservations = db.reservations →
      (rooms.foldl (listStep date slot) (acc, dbx)).1 =
        acc ++ rooms.filter (fun room => (isRoomAvailableList db room.ID date slot).1) ∧
      (rooms.foldl (listStep date slot) (acc, dbx)).2.reservations = db.reservations ∧
      (rooms.foldl (listStep date slot) (acc, dbx)).2.rooms = dbx.rooms := by
  induction rooms with
  | nil => intro acc dbx h; simp [h]
  | cons room rest ih =>
    intro acc dbx h
    have hfst := isRoomAvailableList_fst dbx db h room.ID date slot
    simp only [List.foldl_cons, List.filter_cons]
    cases hb : (isRoomAvailableList db room.ID date slot).1 with
    | true =>
      have hs : listStep date slot (acc, dbx) room = (acc ++ [room], dbx.issue .countConflicts) := by
        rw [hb] at hfst
        simp only [listStep]
        have : isRoomAvailableList dbx room.ID date slot = (true, dbx.issue .countConflicts) :=
          Prod.ext hfst rfl
        rw [this]
      rw [hs]
      have := ih (acc ++ [room]) (dbx.issue .countConflicts) h
      simpa using this
    | false =>
      have hs : listStep date slot (acc, dbx) room = (acc, dbx.issue .countConflicts) := by
        rw [hb] at hfst
        simp only [listStep]
        have : isRoomAvailableList dbx room.ID date slot = (false, dbx.issue .countConflicts) :=
          Prod.ext hfst rfl
        rw [this]
      rw [hs]
      have := ih acc (dbx.issue .countConflicts) h
      simpa using this

theorem timeParseClock_HHMM_value {s : String} (h : isClockHHMM s = true) :
    timeParseClock s = some (clockSeconds s) ∧ clockSeconds s < 86400 := by
  unfold isClockHHMM at h
  split at h
  · rename_i h1 h2 p m1 m2 hl
    simp only [Bool.and_eq_true, beq_iff_eq, decide_eq_true_eq] at h
    obtain ⟨⟨⟨⟨⟨⟨a, b⟩, c⟩, d⟩, e⟩, f⟩, g⟩ := h
    subst c
    have hf : ¬ 24 ≤ digitVal h1 * 10 + digitVal h2 := by omega
    have hg : ¬ 60 ≤ digitVal m1 * 10 + digitVal m2 := by omega
    constructor
    · simp [timeParseClock, clockSeconds, hl, getnum, skip, a, b, d, e, hf, hg]
    · simp only [clockSeconds, hl]
      omega
  · cases h

theorem timeParseDate_calendarDate_value {s : String} (h : isCalendarDate s = true) :
    timeParseDate s = some (calendarDateOf s) := by
  obtain ⟨date, hdate⟩ := timeParseDate_of_calendarDate h
  obtain ⟨y1, y2, y3, y4, m1, m2, d1, d2, hl, _, _, _, _, _, _, _, _, hy, hm, hday, _⟩ :=
    timeParseDate_some hdate
  rw [hdate]
  have hv : calendarDateOf s = date := by
    cases date
    simp only at hy hm hday
    simp only [calendarDateOf, hl, hy, hm, hday]
  rw [hv]

/-- C7: for a well-formed date and a well-formed `HH:MM` time, `listAvailableRooms`
parses both strings to the date and the time of day they denote and returns without
error the rooms of the directory, in directory order, for which the count query on that
date and on the window from the time to the clock reading one hour later counts no
row: a room is returned exactly when no stored reservation of the room on the date
satisfies `(start_time <= t AND end_time > t) OR (start_time < t1 AND end_time >= t1)`
with `t1 = (t + 3600) mod 86400`.  With no rooms the result is the empty list, and the
tables are not modified. -/
theorem listAvailableRooms_spec (db : DB) (scannedDate scannedTime inputDate inputTime : String)
    (hd : isCalendarDate inputDate = true) (ht : isClockHHMM inputTime = true) :
    ∃ date slot avail,
      date = calendarDateOf inputDate ∧ slot = clockSeconds inputTime ∧ slot < 86400 ∧
      timeParseDate inputDate = some date ∧ timeParseClock inputTime = some slot ∧
      (listAvailableRooms db scannedDate scannedTime inputDate inputTime).1 = .ok avail ∧
      avail = db.rooms.filter (fun room =>
        countConflicts db room.ID date slot ((slot + 3600) % 86400) == 0) ∧
      (∀ room, room ∈ avail ↔
        (room ∈ db.rooms ∧
          ¬ ∃ r ∈ db.reservations, r.room_id = room.ID ∧ r.date = date ∧
            ((r.start_time ≤ slot ∧ r.end_time > slot) ∨
             (r.start_time < (slot + 3600) % 86400 ∧ r.end_time ≥ (slot + 3600) % 86400)))) ∧
      (db.rooms = [] → avail = []) ∧
      (listAvailableRooms db scannedDate scannedTime inputDate inputTime).2.reservations =
        db.reservations ∧
      (listAvailableRooms db scannedDate scannedTime inputDate inputTime).2.rooms = db.rooms := by
  have hdate := timeParseDate_calendarDate_value hd
  obtain ⟨hslot, hlt⟩ := timeParseClock_HHMM_value ht
  have hne1 : inputDate ≠ "" := by
    rintro rfl
    exact absurd hd (by decide)
  have hne2 : inputTime ≠ "" := by
    rintro rfl
    exact absurd ht (by decide)
  have hfold := foldl_listStep db (calendarDateOf inputDate) (clockSeconds inputTime) db.rooms []
    (db.issue .selectRooms) rfl
  have hres : (listAvailableRooms db scannedDate scannedTime inputDate inputTime) =
      (.ok (db.rooms.foldl (listStep (calendarDateOf inputDate) (clockSeconds inputTime))
          ([], db.issue .selectRooms)).1,
        (db.rooms.foldl (listStep (calendarDateOf inputDate) (clockSeconds inputTime))
          ([], db.issue .selectRooms)).2) := by
    simp only [listAvailableRooms, hne1, hne2, if_false, hdate, hslot]
    rfl
  have hfilter : (db.rooms.foldl (listStep (calendarDateOf inputDate) (clockSeconds inputTime))
      ([], db.issue .selectRooms)).1 =
      db.rooms.filter (fun room =>
        countConflicts db room.ID (calendarDateOf inputDate) (clockSeconds inputTime)
          ((clockSeconds inputTime + 3600) % 86400) == 0) := by
    rw [hfold.1]
    simp only [List.nil_append]
    rfl
  refine ⟨calendarDateOf inputDate, clockSeconds inputTime, _, rfl, rfl, hlt, hdate, hslot,
    ?_, hfilter, ?_, ?_, ?_, ?_⟩
  · rw [hres]
  · intro room
    rw [hfilter, List.mem_filter]
    have hiff := countConflicts_ne_zero_iff db room.ID (calendarDateOf inputDate)
      (clockSeconds inputTime) ((clockSeconds inputTime + 3600) % 86400)
    have hcl : ∀ r : ReservationRow,
        conflictClause (clockSeconds inputTime) ((clockSeconds inputTime + 3600) % 86400) r =
          true ↔
        ((r.start_time ≤ clockSeconds inputTime ∧ r.end_time > clockSeconds inputTime) ∨
          (r.start_time < (clockSeconds inputTime + 3600) % 86400 ∧
            r.end_time ≥ (clockSeconds inputTime + 3600) % 86400)) := by
      intro r
      simp only [conflictClause, Bool.or_eq_true, Bool.and_eq_true, decide_eq_true_eq]
    simp only [hcl] at hiff
    rw [← hiff]
    simp only [beq_iff_eq, ne_eq, not_not]
  · intro hempty
    rw [hfilter, hempty]
    rfl
  · rw [hres]; exact hfold.2.1
  · rw [hres]; exact hfold.2.2

/-- Witness for C7: on 2024-01-01 at 08:30, with room `B` booked 09:00-10:00 and room
`A` booked 10:00-11:00, the window is 08:30:00 to 09:30:00 and exactly room `A` is
returned. -/
theorem listAvailableRooms_spec_witness :
    (∃ date slot avail,
      date = calendarDateOf "2024-01-01" ∧ slot = clockSeconds "08:30" ∧ slot < 86400 ∧
      timeParseDate "2024-01-01" = some date ∧ timeParseClock "08:30" = some slot ∧
      (listAvailableRooms dbRooms "" "" "2024-01-01" "08:30").1 = .ok avail ∧
      avail = dbRooms.rooms.filter (fun room =>
        countConflicts dbRooms room.ID date slot ((slot + 3600) % 86400) == 0) ∧
      (∀ room, room ∈ avail ↔
        (room ∈ dbRooms.rooms ∧
          ¬ ∃ r ∈ dbRooms.reservations, r.room_id = room.ID ∧ r.date = date ∧
            ((r.start_time ≤ slot ∧ r.end_time > slot) ∨
             (r.start_time < (slot + 3600) % 86400 ∧ r.end_time ≥ (slot + 3600) % 86400)))) ∧
      (dbRooms.rooms = [] → avail = []) ∧
      (listAvailableRooms dbRooms "" "" "2024-01-01" "08:30").2.reservations =
        dbRooms.reservations ∧
      (listAvailableRooms dbRooms "" "" "2024-01-01" "08:30").2.rooms = dbRooms.rooms) ∧
    calendarDateOf "2024-01-01" = { year := 2024, month := 1, day := 1 } ∧
    clockSeconds "08:30" = 30600 ∧
    (listAvailableRooms dbRooms "" "" "2024-01-01" "08:30").1 =
      .ok [{ ID := 2, Name := "A", Capacity := 4 }] ∧
    (listAvailableRooms dbRooms "" "" "2024-01-01" "12:00").1 =
      .ok [{ ID := 1, Name := "B", Capacity := 10 }, { ID := 2, Name := "A", Capacity := 4 }] :=
  ⟨listAvailableRooms_spec dbRooms "" "" "2024-01-01" "08:30" (by decide) (by decide),
   by decide, by decide, rfl, rfl⟩

theorem char_eq_of_toNat_eq {a b : Char} (h : a.toNat = b.toNat) : a = b := by
  apply Char.ext
  apply UInt32.ext
  exact h

theorem nameLt_trichotomy : ∀ x y : List Char, nameLt x y = true ∨ x = y ∨ nameLt y x = true
  | [], [] => Or.inr (Or.inl rfl)
  | [], _ :: _ => Or.inl rfl
  | _ :: _, [] => Or.inr (Or.inr rfl)
  | a :: as, b :: bs => by
    rcases Nat.lt_trichotomy a.toNat b.toNat with h | h | h
    · left; simp [nameLt, h]
    · have hab := char_eq_of_toNat_eq h
      subst hab
      rcases nameLt_trichotomy as bs with h2 | h2 | h2
      · left; simp [nameLt, h2]
      · right; left; rw [h2]
      · right; right; simp [nameLt, h2]
    · right; right; simp [nameLt, h]

theorem nameLt_trans : ∀ x y z : List Char, nameLt x y = true → nameLt y z = true →
    nameLt x z = true
  | _, _, [] => by intro _ h; simp [nameLt] at h
  | _, [], _ :: _ => by intro h _; simp [nameLt] at h
  | [], _ :: _, _ :: _ => by intro _ _; rfl
  | a :: as, b :: bs, c :: cs => by
    intro h1 h2
    simp only [nameLt, Bool.or_eq_true, Bool.and_eq_true, decide_eq_true_eq] at h1 h2 ⊢
    rcases h1 with h1 | ⟨e1, h1⟩
    · rcases h2 with h2 | ⟨e2, h2⟩
      · left; omega
      · subst e2; left; exact h1
    · subst e1
      rcases h2 with h2 | ⟨e2, h2⟩
      · left; exact h2
      · right; exact ⟨e2, nameLt_trans as bs cs h1 h2⟩

theorem byDateStart_total (a b : Reservation) : byDateStart a b ∨ byDateStart b a := by
  simp only [byDateStart, dateLe, Bool.and_eq_true, Bool.or_eq_true, Bool.not_eq_true',
    decide_eq_true_eq, Bool.or_eq_false_iff, Bool.and_eq_false_iff, decide_eq_false_iff_not]
  omega

theorem byDateStart_trans (a b c : Reservation) (h1 : byDateStart a b) (h2 : byDateStart b c) :
    byDateStart a c := by
  simp only [byDateStart, dateLe, Bool.and_eq_true, Bool.or_eq_true, Bool.not_eq_true',
    decide_eq_true_eq, Bool.or_eq_false_iff, Bool.and_eq_false_iff, decide_eq_false_iff_not]
    at h1 h2 ⊢
  omega

theorem byNameDateStart_iff (a b : Reservation) :
    byNameDateStart a b ↔
      (nameLt a.RoomName.data b.RoomName.data = true ∨
        (a.RoomName = b.RoomName ∧ byDateStart a b)) := by
  simp only [byNameDateStart, byDateStart, Bool.or_eq_true, Bool.and_eq_true, decide_eq_true_eq]

theorem byNameDateStart_total (a b : Reservation) :
    byNameDateStart a b ∨ byNameDateStart b a := by
  rw [byNameDateStart_iff, byNameDateStart_iff]
  rcases nameLt_trichotomy a.RoomName.data b.RoomName.data with h | h | h
  · exact Or.inl (Or.inl h)
  · have he : a.RoomName = b.RoomName := String.ext h
    rcases byDateStart_total a b with h2 | h2
    · exact Or.inl (Or.inr ⟨he, h2⟩)
    · exact Or.inr (Or.inr ⟨he.symm, h2⟩)
  · exact Or.inr (Or.inl h)

theorem byNameDateStart_trans (a b c : Reservation) (h1 : byNameDateStart a b)
    (h2 : byNameDateStart b c) : byNameDateStart a c := by
  rw [byNameDateStart_iff] at h1 h2 ⊢
  rcases h1 with h1 | ⟨e1, h1⟩
  · rcases h2 with h2 | ⟨e2, h2⟩
    · exact Or.inl (nameLt_trans _ _ _ h1 h2)
    · rw [← e2]; exact Or.inl h1
  · rcases h2 with h2 | ⟨e2, h2⟩
    · rw [e1]; exact Or.inl h2
    · exact Or.inr ⟨e1.trans e2, byDateStart_trans a b c h1 h2⟩

theorem insertionSort_byDateStart (l : List Reservation) :
    (l.insertionSort byDateStart).Pairwise byDateStart :=
  @List.sorted_insertionSort _ byDateStart _ ⟨byDateStart_total⟩ ⟨byDateStart_trans⟩ l

theorem insertionSort_byNameDateStart (l : List Reservation) :
    (l.insertionSort byNameDateStart).Pairwise byNameDateStart :=
  @List.sorted_insertionSort _ byNameDateStart _ ⟨byNameDateStart_total⟩
    ⟨byNameDateStart_trans⟩ l

/-- C8 (as stated, refuted): with only the date filter, the list comes back ordered by
start time, room `B` at 09:00 before room `A` at 10:00, which is not the order by room
name, then date, then start time. -/
theorem ListReservations_date_only_not_by_name :
    (ListReservations dateMatchesISO dbRooms "" "2024-01-01").1 =
      [{ ID := 0, RoomName := "B", Date := day1, StartTime := 32400, EndTime := 36000 },
       { ID := 0, RoomName := "A", Date := day1, StartTime := 36000, EndTime := 39600 }] ∧
    ¬ ((ListReservations dateMatchesISO dbRooms "" "2024-01-01").1).Pairwise byNameDateStart := by
  constructor <;> decide

/-- C8 (amended): the list `ListReservations` returns is ordered by room name, then date,
then start time when neither filter is given, and by date, then start time as soon as a
room filter or a date filter is given. -/
theorem ListReservations_order (dateMatches : String → Date → Bool) (db : DB)
    (roomName date : String) :
    ((roomName = "" ∧ date = "") →
      ((ListReservations dateMatches db roomName date).1).Pairwise byNameDateStart) ∧
    ((roomName ≠ "" ∨ date ≠ "") →
      ((ListReservations dateMatches db roomName date).1).Pairwise byDateStart) := by
  constructor
  · rintro ⟨rfl, rfl⟩
    simp only [ListReservations, ne_eq, not_true_eq_false, and_self, if_false]
    exact insertionSort_byNameDateStart _
  · intro h
    unfold ListReservations
    by_cases h1 : roomName ≠ "" ∧ date ≠ ""
    · rw [if_pos h1]
      exact insertionSort_byDateStart _
    · rw [if_neg h1]
      by_cases h2 : roomName ≠ ""
      · rw [if_pos h2]
        exact insertionSort_byDateStart _
      · rw [if_neg h2]
        have h3 : date ≠ "" := by
          rcases h with h | h
          · exact absurd h h2
          · exact h
        rw [if_pos h3]
        exact insertionSort_byDateStart _

/-- Witness for C8 (amended): no filter, and the date filter alone, on a database with
the rooms `B` and `A`. -/
theorem ListReservations_order_witness :
    ((ListReservations dateMatchesISO dbRooms "" "").1).Pairwise byNameDateStart ∧
    ((ListReservations dateMatchesISO dbRooms "" "2024-01-01").1).Pairwise byDateStart :=
  ⟨(ListReservations_order dateMatchesISO dbRooms "" "").1 (by decide),
   (ListReservations_order dateMatchesISO dbRooms "" "2024-01-01").2 (by decide)⟩

end PlanningManager
